import Mathlib

/-!
Shallow embedding of the Warbler microblogging application (src/models.py,
src/app.py) for verification of its specification.

The relational store is modelled as lists of rows; every SQL query in the
handlers is translated to the corresponding list operation (`filter`,
`find?`, `insertionSort` for ORDER BY, `take` for LIMIT).  Timestamps are
naturals.  Nullable text columns are modelled as `String` with `""` for
NULL, matching Python truthiness where the code tests them.
-/

namespace Warbler

/-- A row of the `users` table (class `User` in models.py). -/
structure User where
  id : Nat
  username : String
  email : String
  password : String
  image_url : String
  header_image_url : String
  bio : String
  location : String
deriving DecidableEq, Repr

/-- A row of the `messages` table (class `Message` in models.py). -/
structure Message where
  id : Nat
  text : String
  timestamp : Nat
  user_id : Nat
deriving DecidableEq, Repr

/-- A row of the `follows` table (class `Follows` in models.py):
`user_following_id` follows `user_being_followed_id`. -/
structure Follows where
  user_being_followed_id : Nat
  user_following_id : Nat
deriving DecidableEq, Repr

/-- A row of the `likes` table (class `Likes` in models.py). -/
structure Likes where
  user_id : Nat
  message_id : Nat
deriving DecidableEq, Repr

/-- The database: the four tables declared in models.py. -/
structure DB where
  users : List User
  messages : List Message
  follows : List Follows
  likes : List Likes
deriving DecidableEq, Repr

def userIds (db : DB) : List Nat := db.users.map (fun v => v.id)

def messageIds (db : DB) : List Nat := db.messages.map (fun m => m.id)

/-- `followsEdge db a b` : user `a` follows user `b`, i.e. the `follows`
table has a row with `user_being_followed_id = b`, `user_following_id = a`. -/
def followsEdge (db : DB) (a b : Nat) : Prop :=
  Follows.mk b a ∈ db.follows

instance followsEdgeDec (db : DB) (a b : Nat) : Decidable (followsEdge db a b) :=
  inferInstanceAs (Decidable (Follows.mk b a ∈ db.follows))

/-- The `followers` relationship of models.py: the users who follow `u`. -/
def followersOf (db : DB) (u : User) : List User :=
  db.users.filter (fun y => decide (followsEdge db y.id u.id))

/-- The `following` relationship of models.py: the users `u` follows. -/
def followingOf (db : DB) (u : User) : List User :=
  db.users.filter (fun y => decide (followsEdge db u.id y.id))

/-- The follower count aggregated in `suggested_users_for`:
`count(Follows.user_following_id)` grouped over the outer join on
`Follows.user_being_followed_id == User.id`. -/
def follower_count (db : DB) (uid : Nat) : Nat :=
  (db.follows.filter (fun f => f.user_being_followed_id == uid)).length

/-- The ORDER BY key of `suggested_users_for`:
`func.count(...).desc(), User.id.asc()`. -/
def suggestedRel (db : DB) (c1 c2 : User) : Prop :=
  follower_count db c2.id < follower_count db c1.id ∨
    (follower_count db c1.id = follower_count db c2.id ∧ c1.id ≤ c2.id)

instance suggestedRelDec (db : DB) : DecidableRel (suggestedRel db) := fun c1 c2 =>
  inferInstanceAs (Decidable (follower_count db c2.id < follower_count db c1.id ∨
    (follower_count db c1.id = follower_count db c2.id ∧ c1.id ≤ c2.id)))

instance suggestedRelTotal (db : DB) : IsTotal User (suggestedRel db) :=
  ⟨fun a b => by unfold suggestedRel; omega⟩

instance suggestedRelTrans (db : DB) : IsTrans User (suggestedRel db) :=
  ⟨fun a b c => by unfold suggestedRel; omega⟩

/-- The WHERE clause of `suggested_users_for`:
`User.id != user.id, ~User.followers.any(id=user.id)` — the candidate is not
`u`, and `u` does not appear among the candidate's followers. -/
def eligible (db : DB) (u : User) : List User :=
  db.users.filter (fun c => decide (c.id ≠ u.id ∧ ¬ followsEdge db u.id c.id))

/-- `suggested_users_for` from app.py: `None` user gives `[]`, otherwise the
eligible users ordered by follower count descending then id ascending,
limited to `limit`. -/
def suggested_users_for (db : DB) (user : Option User) (limit : Nat) : List User :=
  match user with
  | none => []
  | some u => ((eligible db u).insertionSort (suggestedRel db)).take limit

/-- The ORDER BY key `Message.timestamp.desc()`. -/
def tsDesc (m1 m2 : Message) : Prop :=
  m2.timestamp ≤ m1.timestamp

instance tsDescDec : DecidableRel tsDesc := fun m1 m2 =>
  inferInstanceAs (Decidable (m2.timestamp ≤ m1.timestamp))

instance tsDescTotal : IsTotal Message tsDesc :=
  ⟨fun a b => by unfold tsDesc; omega⟩

instance tsDescTrans : IsTrans Message tsDesc :=
  ⟨fun a b c => by unfold tsDesc; omega⟩

/-- `ids = [u.id for u in g.user.following] + [g.user.id]` in `homepage`. -/
def feedIds (db : DB) (u : User) : List Nat :=
  (followingOf db u).map (fun y => y.id) ++ [u.id]

/-- The `homepage` handler's feed for a logged-in user: the message list it
renders, paired with whether the fallback-feed flash is shown. -/
def homepage_feed (db : DB) (u : User) : List Message × Bool :=
  let ids := feedIds db u
  let messages :=
    ((db.messages.filter (fun m => decide (m.user_id ∈ ids))).insertionSort tsDesc).take 100
  if followingOf db u = [] then
    ((db.messages.insertionSort tsDesc).take 50, true)
  else
    (messages, false)

/-- Outcome of the `toggle_like` handler (the like route for a logged-in user). -/
inductive ToggleOutcome where
  | notFound
  | forbiddenSelf
  | liked
  | unliked
deriving DecidableEq, Repr

/-- The `toggle_like` handler of app.py for a logged-in user `uid`:
404 on a missing message, Forbidden warning on the author's own message,
otherwise delete the existing `likes` row or insert a new one. -/
def toggle_like (db : DB) (uid mid : Nat) : ToggleOutcome × DB :=
  match db.messages.find? (fun m => m.id == mid) with
  | none => (.notFound, db)
  | some msg =>
    if msg.user_id == uid then
      (.forbiddenSelf, db)
    else
      match db.likes.find? (fun l => l.user_id == uid && l.message_id == mid) with
      | some l => (.unliked, { db with likes := db.likes.erase l })
      | none => (.liked, { db with likes := Likes.mk uid mid :: db.likes })

/-- Outcome of the `stop_following` handler. -/
inductive StopOutcome where
  | unauthorized
  | valueError
  | ok
deriving DecidableEq, Repr

/-- The `stop_following` handler: `User.query.get(follow_id)` (no 404 guard)
followed by `g.user.following.remove(followed_user)`; removing `None` or a
user not in the `following` list raises `ValueError`. -/
def stop_following (db : DB) (gu : Option User) (fid : Nat) : StopOutcome × DB :=
  match gu with
  | none => (.unauthorized, db)
  | some u =>
    match db.users.find? (fun v => v.id == fid) with
    | none => (.valueError, db)
    | some fu =>
      if Follows.mk fu.id u.id ∈ db.follows then
        (.ok, { db with follows := db.follows.erase (Follows.mk fu.id u.id) })
      else
        (.valueError, db)

/-- Outcome of the `add_follow` handler. -/
inductive FollowOutcome where
  | unauthorized
  | notFound
  | ok
deriving DecidableEq, Repr

/-- The `add_follow` handler: `User.query.get_or_404(follow_id)` then
`g.user.following.append(followed_user)`. -/
def add_follow (db : DB) (gu : Option User) (fid : Nat) : FollowOutcome × DB :=
  match gu with
  | none => (.unauthorized, db)
  | some u =>
    match db.users.find? (fun v => v.id == fid) with
    | none => (.notFound, db)
    | some fu =>
      (.ok, { db with follows := db.follows ++ [Follows.mk fu.id u.id] })

/-- The `users_show` handler: `User.query.get_or_404(user_id)` (`none` is the
404 response) and the user's latest 100 messages. -/
def users_show (db : DB) (uid : Nat) : Option (User × List Message) :=
  match db.users.find? (fun v => v.id == uid) with
  | none => none
  | some u =>
    some (u, ((db.messages.filter (fun m => m.user_id == uid)).insertionSort tsDesc).take 100)

/-- The `delete_user` handler together with the schema's `ON DELETE CASCADE`
foreign keys: deleting user `uid` removes the user row, every message with
`user_id = uid`, every follows row with `uid` on either side, every likes row
with `user_id = uid`, and (cascade through `messages.id`) every likes row
whose message was deleted. -/
def delete_user (db : DB) (uid : Nat) : DB :=
  let deadMessageIds := (db.messages.filter (fun m => m.user_id == uid)).map (fun m => m.id)
  { users := db.users.filter (fun v => decide (v.id ≠ uid))
    messages := db.messages.filter (fun m => decide (m.user_id ≠ uid))
    follows := db.follows.filter
      (fun f => decide (f.user_being_followed_id ≠ uid ∧ f.user_following_id ≠ uid))
    likes := db.likes.filter
      (fun l => decide (l.user_id ≠ uid ∧ l.message_id ∉ deadMessageIds)) }

/-- `User.authenticate` from models.py, parametrised by the bcrypt
`check_password_hash` function: look up by username, verify, return the user
or the invalid result (`False` in the source, `none` here). -/
def authenticate (check : String → String → Bool) (db : DB) (username pw : String) :
    Option User :=
  match db.users.find? (fun v => v.username == username) with
  | some v => if check v.password pw then some v else none
  | none => none

/-- `User.signup` from models.py, parametrised by the bcrypt
`generate_password_hash` function; the database assigns the fresh id
`newId`.  A falsy (`""`) image_url gets the default avatar path. -/
def signup (hash : String → String) (db : DB) (newId : Nat)
    (username email pw imageUrl : String) : DB × User :=
  let u : User :=
    { id := newId
      username := username
      email := email
      password := hash pw
      image_url := if imageUrl == "" then "/static/images/default-pic.png" else imageUrl
      header_image_url := "/static/images/warbler-hero.jpg"
      bio := ""
      location := "" }
  ({ db with users := db.users ++ [u] }, u)

/-- The `EditProfileForm` data submitted to the `profile` handler. -/
structure EditProfileForm where
  username : String
  email : String
  image_url : String
  header_image_url : String
  location : String
  bio : String
  password : String
deriving DecidableEq, Repr

/-- Outcome of the `profile` handler on POST. -/
inductive ProfileOutcome where
  | unauthorized
  | wrongPassword
  | conflict
  | ok
deriving DecidableEq, Repr

/-- The field updates the `profile` handler applies to `g.user`: a falsy
(`""`) submitted image_url or header_image_url keeps the previous value. -/
def applyEdit (u : User) (form : EditProfileForm) : User :=
  { u with
    username := form.username
    email := form.email
    image_url := if form.image_url == "" then u.image_url else form.image_url
    header_image_url :=
      if form.header_image_url == "" then u.header_image_url else form.header_image_url
    location := form.location
    bio := form.bio }

/-- The `profile` handler on a validated POST: re-authenticate with the
current password, apply the edits to `g.user`, commit; a username/email
uniqueness conflict raises `IntegrityError` and the transaction is rolled
back. -/
def profile_update (check : String → String → Bool) (db : DB) (gu : Option User)
    (form : EditProfileForm) : ProfileOutcome × DB :=
  match gu with
  | none => (.unauthorized, db)
  | some u =>
    match authenticate check db u.username form.password with
    | none => (.wrongPassword, db)
    | some _ =>
      if db.users.any
          (fun v => v.id != u.id && (v.username == form.username || v.email == form.email)) then
        (.conflict, db)
      else
        (.ok, { db with users := db.users.map (fun v => if v.id == u.id then applyEdit u form else v) })

/-- The schema invariants the database enforces: primary keys (distinct user
ids, message ids, follows rows, likes rows), UNIQUE username and email, and
the foreign keys of `follows`, `messages` and `likes`. -/
def DB.wf (db : DB) : Prop :=
  (db.users.map (fun v => v.id)).Nodup ∧
  (db.users.map (fun v => v.username)).Nodup ∧
  (db.users.map (fun v => v.email)).Nodup ∧
  (db.messages.map (fun m => m.id)).Nodup ∧
  db.follows.Nodup ∧
  db.likes.Nodup ∧
  (∀ f ∈ db.follows, f.user_being_followed_id ∈ userIds db ∧ f.user_following_id ∈ userIds db) ∧
  (∀ m ∈ db.messages, m.user_id ∈ userIds db) ∧
  (∀ l ∈ db.likes, l.user_id ∈ userIds db ∧ l.message_id ∈ messageIds db)

instance DB.wfDec (db : DB) : Decidable db.wf := by
  unfold DB.wf
  infer_instance

/-! ### Concrete fixtures used in example and witness statements -/

/-- A bcrypt stand-in for witness instantiation: prefix the plaintext. -/
def hashModel (p : String) : String := "$2b$" ++ p

/-- The verification matching `hashModel`. -/
def checkModel (h q : String) : Bool := h == "$2b$" ++ q

def exU : User := ⟨1, "u", "u@x", "$2b$pw0", "", "", "", ""⟩

def exV : User := ⟨2, "v", "v@x", "$2b$pw9", "", "", "", ""⟩

/-- Two users where `exV` follows `exU` but `exU` does not follow `exV`. -/
def exDB : DB := ⟨[exU, exV], [], [⟨1, 2⟩], []⟩

def wU1 : User := ⟨1, "alice", "alice@x", "$2b$pw1", "/a.png", "/ha.png", "hi", "NY"⟩

def wU2 : User := ⟨2, "bob", "bob@x", "$2b$pw2", "/b.png", "/hb.png", "yo", "LA"⟩

def wU3 : User := ⟨3, "carol", "carol@x", "$2b$pw3", "/c.png", "/hc.png", "ok", "SF"⟩

def wM1 : Message := ⟨10, "first", 5, 2⟩

def wM2 : Message := ⟨11, "second", 7, 1⟩

def wM3 : Message := ⟨12, "third", 3, 3⟩

/-- A well-formed database: alice follows bob, alice likes bob's message. -/
def wDB : DB := ⟨[wU1, wU2, wU3], [wM1, wM2, wM3], [⟨2, 1⟩], [⟨1, 10⟩]⟩

def wForm : EditProfileForm := ⟨"alice2", "alice2@x", "", "", "NYC", "hello", "pw1"⟩

/-- The database of the spec's ranking example: users A, B, C, D with 0, 3,
3 and 10 incoming follows, none following or followed by the target U. -/
def specU : User := ⟨1, "U", "U@x", "$2b$p", "", "", "", ""⟩

def specA : User := ⟨2, "A", "A@x", "$2b$p", "", "", "", ""⟩

def specB : User := ⟨3, "B", "B@x", "$2b$p", "", "", "", ""⟩

def specC : User := ⟨4, "C", "C@x", "$2b$p", "", "", "", ""⟩

def specD : User := ⟨5, "D", "D@x", "$2b$p", "", "", "", ""⟩

def specDB : DB :=
  ⟨[specU, specA, specB, specC, specD], [],
   [⟨3, 10⟩, ⟨3, 11⟩, ⟨3, 12⟩,
    ⟨4, 10⟩, ⟨4, 11⟩, ⟨4, 12⟩,
    ⟨5, 10⟩, ⟨5, 11⟩, ⟨5, 12⟩, ⟨5, 13⟩, ⟨5, 14⟩, ⟨5, 15⟩, ⟨5, 16⟩, ⟨5, 17⟩, ⟨5, 18⟩, ⟨5, 19⟩],
   []⟩

/-! ### Helper lemmas -/

theorem pairwise_tsDesc (l : List Message) :
    (l.insertionSort tsDesc).Pairwise (fun m1 m2 => m2.timestamp ≤ m1.timestamp) :=
  List.sorted_insertionSort tsDesc l

/-- The spec's worked ranking example: with candidates A (0 followers),
B (3), C (3, larger id), D (10), the suggestion list for U is [D, B, C, A]. -/
theorem suggested_spec_example :
    suggested_users_for specDB (some specU) 5 = [specD, specB, specC, specA] := by
  decide

/-! ### Claims -/

/-- C1 counterexample: `exV` already follows `exU`, yet `exV` is returned by
`suggested_users_for exDB (some exU) 5` — the exclusion predicate does not
remove followers of the target user, refuting the claim as stated. -/
theorem suggested_contains_follower :
    exV ∈ suggested_users_for exDB (some exU) 5 ∧ followsEdge exDB exV.id exU.id := by
  decide

/-- C1 (amended): for every logged-in user `u`, the suggested-users list
never contains `u` itself and never contains any user whom `u` already
follows (the exclusion predicate tests whether `u` follows the candidate). -/
theorem suggested_excludes_self_and_followed (db : DB) (u : User) (limit : Nat) (c : User)
    (hc : c ∈ suggested_users_for db (some u) limit) :
    c.id ≠ u.id ∧ ¬ followsEdge db u.id c.id := by
  have hc1 : c ∈ ((eligible db u).insertionSort (suggestedRel db)).take limit := hc
  have hc2 : c ∈ (eligible db u).insertionSort (suggestedRel db) := List.take_subset _ _ hc1
  have hc3 : c ∈ eligible db u := (List.mem_insertionSort _).1 hc2
  have hc4 := List.mem_filter.1 hc3
  simpa using hc4.2

/-- C1 witness: in `exDB` the user `exV` is suggested to `exU`, and indeed
it is neither `exU` itself nor a user `exU` follows. -/
theorem suggested_excludes_self_and_followed_witness :
    exV.id ≠ exU.id ∧ ¬ followsEdge exDB exU.id exV.id :=
  suggested_excludes_self_and_followed exDB exU 5 exV (by decide)

/-- C3: `suggested_users_for` returns the eligible candidates ranked by
incoming-follow count descending with ascending-id tie-break, truncated to
`limit`; an absent user yields `[]`, and when fewer than `limit` candidates
exist all of them are returned (the length is `min limit (#eligible)`). -/
theorem suggested_ranking_spec (db : DB) (u : User) (limit : Nat) :
    suggested_users_for db none limit = [] ∧
    (suggested_users_for db (some u) limit).length = min limit (eligible db u).length ∧
    ∃ L : List User,
      L.Perm (eligible db u) ∧
      List.Pairwise (fun c1 c2 =>
        follower_count db c2.id < follower_count db c1.id ∨
          (follower_count db c1.id = follower_count db c2.id ∧ c1.id ≤ c2.id)) L ∧
      suggested_users_for db (some u) limit = L.take limit := by
  refine ⟨rfl, ?_, ?_⟩
  · show (((eligible db u).insertionSort (suggestedRel db)).take limit).length = _
    rw [List.length_take, (List.perm_insertionSort (suggestedRel db) (eligible db u)).length_eq]
  · refine ⟨(eligible db u).insertionSort (suggestedRel db),
      List.perm_insertionSort _ _, ?_, rfl⟩
    exact List.sorted_insertionSort (suggestedRel db) (eligible db u)

theorem mem_feedIds_iff (db : DB) (u : User)
    (hfk : ∀ f ∈ db.follows, f.user_being_followed_id ∈ userIds db) (aid : Nat) :
    aid ∈ feedIds db u ↔ (aid = u.id ∨ followsEdge db u.id aid) := by
  simp only [feedIds, List.mem_append, List.mem_map, List.mem_singleton]
  constructor
  · rintro (⟨y, hy, rfl⟩ | h)
    · right
      have h2 := (List.mem_filter.1 hy).2
      simpa using h2
    · exact Or.inl h
  · rintro (rfl | h)
    · exact Or.inr rfl
    · left
      have haid : aid ∈ userIds db := hfk ⟨aid, u.id⟩ h
      obtain ⟨v, hv, hvid⟩ := List.mem_map.1 haid
      refine ⟨v, List.mem_filter.2 ⟨hv, ?_⟩, hvid⟩
      rw [decide_eq_true_eq, hvid]
      exact h

theorem homepage_filter_congr (db : DB) (u : User)
    (hfk : ∀ f ∈ db.follows, f.user_being_followed_id ∈ userIds db) :
    db.messages.filter (fun m => decide (m.user_id ∈ feedIds db u)) =
      db.messages.filter (fun m => decide (m.user_id = u.id ∨ followsEdge db u.id m.user_id)) := by
  apply List.filter_congr
  intro m _
  rw [decide_eq_decide]
  exact mem_feedIds_iff db u hfk m.user_id

/-- C2: for a logged-in user who follows at least one user, the home feed is
(a permutation-sort of) the messages authored by the user or a followee,
newest first, cut to 100, with no fallback notice; for a user following
nobody it is the 50 most recent messages system-wide, newest first, with the
fallback notice signalled. -/
theorem home_feed_spec (db : DB) (u : User) (hwf : db.wf) :
    ((homepage_feed db u).2 = true ↔ followingOf db u = []) ∧
    (followingOf db u = [] →
      ∃ L : List Message, L.Perm db.messages ∧
        L.Pairwise (fun m1 m2 => m2.timestamp ≤ m1.timestamp) ∧
        (homepage_feed db u).1 = L.take 50) ∧
    (followingOf db u ≠ [] →
      ∃ L : List Message,
        L.Perm (db.messages.filter
          (fun m => decide (m.user_id = u.id ∨ followsEdge db u.id m.user_id))) ∧
        L.Pairwise (fun m1 m2 => m2.timestamp ≤ m1.timestamp) ∧
        (homepage_feed db u).1 = L.take 100 ∧
        (homepage_feed db u).1.length ≤ 100) := by
  obtain ⟨-, -, -, -, -, -, hfk, -, -⟩ := hwf
  have hfk1 : ∀ f ∈ db.follows, f.user_being_followed_id ∈ userIds db :=
    fun f hf => (hfk f hf).1
  refine ⟨?_, ?_, ?_⟩
  · constructor
    · intro h2
      by_contra h
      simp only [homepage_feed, if_neg h] at h2
      exact Bool.false_ne_true h2
    · intro h
      simp only [homepage_feed, if_pos h]
  · intro h
    refine ⟨db.messages.insertionSort tsDesc, List.perm_insertionSort _ _,
      pairwise_tsDesc _, ?_⟩
    simp only [homepage_feed, if_pos h]
  · intro h
    refine ⟨(db.messages.filter
      (fun m => decide (m.user_id ∈ feedIds db u))).insertionSort tsDesc, ?_,
      pairwise_tsDesc _, ?_, ?_⟩
    · exact (List.perm_insertionSort _ _).trans
        (List.Perm.of_eq (homepage_filter_congr db u hfk1))
    · simp only [homepage_feed, if_neg h]
    · simp only [homepage_feed, if_neg h]
      exact List.length_take_le _ _

/-- C2 witness: in `wDB`, alice follows bob, and the fallback flag of her
home feed is indeed off. -/
theorem home_feed_spec_witness :
    wDB.wf ∧ ((homepage_feed wDB wU1).2 = true ↔ followingOf wDB wU1 = []) :=
  ⟨by decide, (home_feed_spec wDB wU1 (by decide)).1⟩

theorem toggle_like_eq (db : DB) (uid mid : Nat) (m2 : Message)
    (hf : db.messages.find? (fun m => m.id == mid) = some m2)
    (hne : (m2.user_id == uid) = false) :
    toggle_like db uid mid =
      (match db.likes.find? (fun l => l.user_id == uid && l.message_id == mid) with
       | some l => (ToggleOutcome.unliked, { db with likes := db.likes.erase l })
       | none => (ToggleOutcome.liked, { db with likes := Likes.mk uid mid :: db.likes })) := by
  unfold toggle_like
  rw [hf]
  simp only [hne]
  rfl

/-- C4: toggling a like twice, by a non-author on an existing message,
restores the original like-state (the final likes table is a permutation of
the original and has the same membership for the pair), and at every point
the likes table has at most one row for the pair. -/
theorem toggle_like_pair_restores (db : DB) (uid mid : Nat) (mm : Message)
    (hm : mm ∈ db.messages) (hmid : mm.id = mid) (hauthor : mm.user_id ≠ uid)
    (hmids : (db.messages.map (fun m => m.id)).Nodup)
    (hlnd : db.likes.Nodup) :
    ((toggle_like (toggle_like db uid mid).2 uid mid).2.likes.Perm db.likes) ∧
    ((Likes.mk uid mid ∈ (toggle_like (toggle_like db uid mid).2 uid mid).2.likes) ↔
      Likes.mk uid mid ∈ db.likes) ∧
    db.likes.count (Likes.mk uid mid) ≤ 1 ∧
    (toggle_like db uid mid).2.likes.count (Likes.mk uid mid) ≤ 1 ∧
    (toggle_like (toggle_like db uid mid).2 uid mid).2.likes.count (Likes.mk uid mid) ≤ 1 := by
  have hcount0 : db.likes.count (Likes.mk uid mid) ≤ 1 :=
    List.nodup_iff_count_le_one.1 hlnd _
  cases hf : db.messages.find? (fun m => m.id == mid) with
  | none =>
    exfalso
    rw [List.find?_eq_none] at hf
    exact hf mm hm (by simp [hmid])
  | some m2 =>
    have hm2mem := List.mem_of_find?_eq_some hf
    have hm2id : m2.id = mid := by simpa using List.find?_some hf
    have hmmeq : m2 = mm := List.inj_on_of_nodup_map hmids hm2mem hm (by rw [hm2id, hmid])
    have hcond : (m2.user_id == uid) = false := by simp [hmmeq, hauthor]
    cases hl : db.likes.find? (fun l => l.user_id == uid && l.message_id == mid) with
    | some l0 =>
      have hl0mem : l0 ∈ db.likes := List.mem_of_find?_eq_some hl
      have hl0p := List.find?_some hl
      have hl0eq : l0 = Likes.mk uid mid := by
        cases l0 with
        | mk a b =>
          simp only [Bool.and_eq_true, beq_iff_eq] at hl0p
          simp [hl0p.1, hl0p.2]
      rw [hl0eq] at hl0mem
      have ht1 : toggle_like db uid mid =
          (ToggleOutcome.unliked, { db with likes := db.likes.erase (Likes.mk uid mid) }) := by
        rw [toggle_like_eq db uid mid m2 hf hcond, hl, hl0eq]
      have hf1 : ({ db with likes := db.likes.erase (Likes.mk uid mid) } : DB).messages.find?
          (fun m => m.id == mid) = some m2 := hf
      have hl1 : (db.likes.erase (Likes.mk uid mid)).find?
          (fun l => l.user_id == uid && l.message_id == mid) = none := by
        rw [List.find?_eq_none]
        intro x hx hpx
        have hxeq : x = Likes.mk uid mid := by
          cases x with
          | mk a b =>
            simp only [Bool.and_eq_true, beq_iff_eq] at hpx
            simp [hpx.1, hpx.2]
        rw [hxeq] at hx
        exact ((hlnd.mem_erase_iff).1 hx).1 rfl
      have ht2 : toggle_like ({ db with likes := db.likes.erase (Likes.mk uid mid) } : DB) uid mid =
          (ToggleOutcome.liked,
            { db with likes := Likes.mk uid mid :: db.likes.erase (Likes.mk uid mid) }) := by
        rw [toggle_like_eq _ uid mid m2 hf1 hcond, hl1]
      simp only [ht1, ht2]
      refine ⟨(List.perm_cons_erase hl0mem).symm, iff_of_true (List.mem_cons_self _ _) hl0mem,
        hcount0, ?_, ?_⟩
      · rw [List.count_erase_self]
        omega
      · rw [List.count_cons_self, List.count_erase_self]
        have hpos : 0 < db.likes.count (Likes.mk uid mid) := List.count_pos_iff.2 hl0mem
        omega
    | none =>
      have hnotmem : Likes.mk uid mid ∉ db.likes := by
        intro hmem
        rw [List.find?_eq_none] at hl
        exact hl _ hmem (by simp)
      have ht1 : toggle_like db uid mid =
          (ToggleOutcome.liked, { db with likes := Likes.mk uid mid :: db.likes }) := by
        rw [toggle_like_eq db uid mid m2 hf hcond, hl]
      have hf1 : ({ db with likes := Likes.mk uid mid :: db.likes } : DB).messages.find?
          (fun m => m.id == mid) = some m2 := hf
      have hl1 : (Likes.mk uid mid :: db.likes).find?
          (fun l => l.user_id == uid && l.message_id == mid) = some (Likes.mk uid mid) :=
        List.find?_cons_of_pos _ (by simp)
      have ht2 : toggle_like ({ db with likes := Likes.mk uid mid :: db.likes } : DB) uid mid =
          (ToggleOutcome.unliked,
            { db with likes := (Likes.mk uid mid :: db.likes).erase (Likes.mk uid mid) }) := by
        rw [toggle_like_eq _ uid mid m2 hf1 hcond, hl1]
      have herase : (Likes.mk uid mid :: db.likes).erase (Likes.mk uid mid) = db.likes :=
        List.erase_cons_head _ _
      simp only [ht1, ht2, herase]
      have hzero : db.likes.count (Likes.mk uid mid) = 0 := List.count_eq_zero.2 hnotmem
      refine ⟨List.Perm.refl _, trivial, hcount0, ?_, hcount0⟩
      rw [List.count_cons_self]
      omega

/-- C4 witness: in `wDB`, alice (1) has liked bob's message (10); toggling
twice leaves the likes table a permutation of the original. -/
theorem toggle_like_pair_restores_witness :
    wM1 ∈ wDB.messages ∧
      (toggle_like (toggle_like wDB 1 10).2 1 10).2.likes.Perm wDB.likes :=
  ⟨by decide,
    (toggle_like_pair_restores wDB 1 10 wM1 (by decide) rfl (by decide) (by decide)
      (by decide)).1⟩

/-- C5: the author of an existing message who attempts to like it gets the
Forbidden outcome and the database is returned entirely unchanged. -/
theorem toggle_like_author_forbidden (db : DB) (uid mid : Nat) (mm : Message)
    (hm : mm ∈ db.messages) (hmid : mm.id = mid)
    (hmids : (db.messages.map (fun m => m.id)).Nodup)
    (hself : mm.user_id = uid) :
    toggle_like db uid mid = (ToggleOutcome.forbiddenSelf, db) := by
  cases hf : db.messages.find? (fun m => m.id == mid) with
  | none =>
    exfalso
    rw [List.find?_eq_none] at hf
    exact hf mm hm (by simp [hmid])
  | some m2 =>
    have hm2mem := List.mem_of_find?_eq_some hf
    have hm2id : m2.id = mid := by simpa using List.find?_some hf
    have hmmeq : m2 = mm := List.inj_on_of_nodup_map hmids hm2mem hm (by rw [hm2id, hmid])
    unfold toggle_like
    rw [hf]
    simp [hmmeq, hself]

/-- C5 witness: bob (2) trying to like his own message (10) in `wDB` is
rejected with Forbidden and the database is unchanged. -/
theorem toggle_like_author_forbidden_witness :
    wM1.user_id = 2 ∧ toggle_like wDB 2 10 = (ToggleOutcome.forbiddenSelf, wDB) :=
  ⟨rfl, toggle_like_author_forbidden wDB 2 10 wM1 (by decide) rfl (by decide) rfl⟩

theorem mem_users_delete (db : DB) (uid : Nat) (v : User) :
    v ∈ (delete_user db uid).users ↔ v ∈ db.users ∧ v.id ≠ uid := by
  simp [delete_user, List.mem_filter]

theorem mem_messages_delete (db : DB) (uid : Nat) (m : Message) :
    m ∈ (delete_user db uid).messages ↔ m ∈ db.messages ∧ m.user_id ≠ uid := by
  simp [delete_user, List.mem_filter]

theorem mem_follows_delete (db : DB) (uid : Nat) (f : Follows) :
    f ∈ (delete_user db uid).follows ↔
      f ∈ db.follows ∧ f.user_being_followed_id ≠ uid ∧ f.user_following_id ≠ uid := by
  simp [delete_user, List.mem_filter, and_assoc]

theorem mem_likes_delete (db : DB) (uid : Nat) (l : Likes) :
    l ∈ (delete_user db uid).likes ↔
      l ∈ db.likes ∧ l.user_id ≠ uid ∧
        ¬ ∃ m, m ∈ db.messages ∧ m.id = l.message_id ∧ m.user_id = uid := by
  simp only [delete_user, List.mem_filter, decide_eq_true_eq, List.mem_map, List.mem_filter]
  constructor
  · rintro ⟨hl, hid, hdead⟩
    refine ⟨hl, hid, ?_⟩
    rintro ⟨m, hm, hmid, hmu⟩
    exact hdead ⟨m, ⟨hm, by simp [hmu]⟩, hmid⟩
  · rintro ⟨hl, hid, hdead⟩
    refine ⟨hl, hid, ?_⟩
    rintro ⟨m, ⟨hm, hmu⟩, hmid⟩
    exact hdead ⟨m, hm, hmid, by simpa using hmu⟩

theorem mem_userIds_delete (db : DB) (uid : Nat) (x : Nat) :
    x ∈ userIds (delete_user db uid) ↔ x ∈ userIds db ∧ x ≠ uid := by
  simp only [userIds, List.mem_map]
  constructor
  · rintro ⟨v, hv, rfl⟩
    have hv2 := (mem_users_delete db uid v).1 hv
    exact ⟨⟨v, hv2.1, rfl⟩, hv2.2⟩
  · rintro ⟨⟨v, hv, rfl⟩, hne⟩
    exact ⟨v, (mem_users_delete db uid v).2 ⟨hv, hne⟩, rfl⟩

/-- Deleting a user preserves the schema invariants: in particular no
dangling foreign key (orphan row) is left behind. -/
theorem delete_user_wf (db : DB) (uid : Nat) (hwf : db.wf) : (delete_user db uid).wf := by
  obtain ⟨hu, hun, hue, hm, hfnd, hlnd, hffk, hmfk, hlfk⟩ := hwf
  refine ⟨?_, ?_, ?_, ?_, ?_, ?_, ?_, ?_, ?_⟩
  · exact List.Nodup.sublist ((List.filter_sublist _).map _) hu
  · exact List.Nodup.sublist ((List.filter_sublist _).map _) hun
  · exact List.Nodup.sublist ((List.filter_sublist _).map _) hue
  · exact List.Nodup.sublist ((List.filter_sublist _).map _) hm
  · exact List.Nodup.sublist (List.filter_sublist _) hfnd
  · exact List.Nodup.sublist (List.filter_sublist _) hlnd
  · intro f hf
    obtain ⟨hf0, hb, ho⟩ := (mem_follows_delete db uid f).1 hf
    exact ⟨(mem_userIds_delete db uid _).2 ⟨(hffk f hf0).1, hb⟩,
      (mem_userIds_delete db uid _).2 ⟨(hffk f hf0).2, ho⟩⟩
  · intro m hm2
    obtain ⟨hm0, hne⟩ := (mem_messages_delete db uid m).1 hm2
    exact (mem_userIds_delete db uid _).2 ⟨hmfk m hm0, hne⟩
  · intro l hl
    obtain ⟨hl0, hlu, hdead⟩ := (mem_likes_delete db uid l).1 hl
    refine ⟨(mem_userIds_delete db uid _).2 ⟨(hlfk l hl0).1, hlu⟩, ?_⟩
    obtain ⟨m, hm0, hmid⟩ := List.mem_map.1 (hlfk l hl0).2
    have hmu : m.user_id ≠ uid := fun hbad => hdead ⟨m, hm0, hmid, hbad⟩
    exact List.mem_map.2 ⟨m, (mem_messages_delete db uid m).2 ⟨hm0, hmu⟩, hmid⟩

/-- C6: deleting user `uid` removes every message authored by `uid`, every
follows edge with `uid` on either side, and every likes row whose liker is
`uid` or whose message was authored by `uid` — and nothing else — and the
resulting database is again well-formed (no orphan rows). -/
theorem delete_user_cascades (db : DB) (uid : Nat) (hwf : db.wf) :
    (∀ v, v ∈ (delete_user db uid).users ↔ v ∈ db.users ∧ v.id ≠ uid) ∧
    (∀ m, m ∈ (delete_user db uid).messages ↔ m ∈ db.messages ∧ m.user_id ≠ uid) ∧
    (∀ f, f ∈ (delete_user db uid).follows ↔
      f ∈ db.follows ∧ f.user_being_followed_id ≠ uid ∧ f.user_following_id ≠ uid) ∧
    (∀ l, l ∈ (delete_user db uid).likes ↔
      l ∈ db.likes ∧ l.user_id ≠ uid ∧
        ¬ ∃ m, m ∈ db.messages ∧ m.id = l.message_id ∧ m.user_id = uid) ∧
    (delete_user db uid).wf :=
  ⟨mem_users_delete db uid, mem_messages_delete db uid, mem_follows_delete db uid,
    mem_likes_delete db uid, delete_user_wf db uid hwf⟩

/-- C6 witness: deleting bob (2) from the well-formed `wDB` leaves a
well-formed database. -/
theorem delete_user_cascades_witness : wDB.wf ∧ (delete_user wDB 2).wf :=
  ⟨by decide, (delete_user_cascades wDB 2 (by decide)).2.2.2.2⟩

theorem hashModel_ne (p : String) : hashModel p ≠ p := by
  intro h
  have h2 := congrArg String.length h
  rw [hashModel, String.length_append] at h2
  have h3 : "$2b$".length = 4 := rfl
  omega

theorem checkModel_iff (p q : String) : checkModel (hashModel p) q = true ↔ q = p := by
  show (("$2b$" ++ p) == ("$2b$" ++ q)) = true ↔ q = p
  rw [beq_iff_eq]
  constructor
  · intro h
    have h2 := congrArg String.data h
    simp only [String.data_append] at h2
    exact (String.ext (List.append_cancel_left h2)).symm
  · intro h
    rw [h]

/-- C7: for a signup with a fresh username, under the contract of the bcrypt
hash (`hash p` never equals `p`; verification succeeds exactly on the
original plaintext), the stored password differs from the plaintext,
authentication with the correct plaintext returns the new user, and
authentication with any other password (in particular any single-character
variant) returns the invalid result. -/
theorem signup_authenticate_spec (hash : String → String) (check : String → String → Bool)
    (hhash : ∀ p, hash p ≠ p)
    (hcheck : ∀ p q, check (hash p) q = true ↔ q = p)
    (db : DB) (newId : Nat) (un em pw img : String)
    (hfresh : ∀ v ∈ db.users, v.username ≠ un) :
    (signup hash db newId un em pw img).2.password ≠ pw ∧
    authenticate check (signup hash db newId un em pw img).1 un pw =
      some (signup hash db newId un em pw img).2 ∧
    (∀ pw2, pw2 ≠ pw →
      authenticate check (signup hash db newId un em pw img).1 un pw2 = none) := by
  have hnone : db.users.find? (fun v => v.username == un) = none := by
    rw [List.find?_eq_none]
    intro v hv
    simp [hfresh v hv]
  have hfind : (signup hash db newId un em pw img).1.users.find? (fun v => v.username == un)
      = some (signup hash db newId un em pw img).2 := by
    show (db.users ++ [(signup hash db newId un em pw img).2]).find? (fun v => v.username == un)
      = some (signup hash db newId un em pw img).2
    rw [List.find?_append, hnone]
    simp [signup]
  refine ⟨hhash pw, ?_, ?_⟩
  · unfold authenticate
    simp only [hfind]
    rw [if_pos]
    show check (hash pw) pw = true
    exact (hcheck pw pw).2 rfl
  · intro pw2 hne
    unfold authenticate
    simp only [hfind]
    rw [if_neg]
    intro hc
    exact hne ((hcheck pw pw2).1 hc)

/-- C7 witness: signing up "dave" against `wDB` with the model hash stores a
password different from the plaintext. -/
theorem signup_authenticate_spec_witness :
    (∀ v ∈ wDB.users, v.username ≠ "dave") ∧
      (signup hashModel wDB 4 "dave" "dave@x" "pw4" "").2.password ≠ "pw4" :=
  ⟨by decide,
    (signup_authenticate_spec hashModel checkModel hashModel_ne checkModel_iff
      wDB 4 "dave" "dave@x" "pw4" "" (by decide)).1⟩

/-- C8: at the failing input (id 99 absent from `wDB`), profile view, follow
and like-toggle surface the not-found response, but stop-following instead
reaches the unguarded `remove` and raises (a `ValueError`, an internal
server error), contradicting the claimed uniform not-found behaviour. -/
theorem nonexistent_id_outcomes :
    users_show wDB 99 = none ∧
    add_follow wDB (some wU1) 99 = (FollowOutcome.notFound, wDB) ∧
    toggle_like wDB 1 99 = (ToggleOutcome.notFound, wDB) ∧
    stop_following wDB (some wU1) 99 = (StopOutcome.valueError, wDB) := by
  decide

/-- C9: whenever the logged-in user does not currently follow the user with
the target id — in particular when no such user exists — `stop_following`
reaches the unguarded error branch (`ValueError` from `list.remove`) and no
follows edge is removed. -/
theorem stop_following_unguarded (db : DB) (u : User) (fid : Nat)
    (h : Follows.mk fid u.id ∉ db.follows) :
    stop_following db (some u) fid = (StopOutcome.valueError, db) := by
  unfold stop_following
  cases hf : db.users.find? (fun v => v.id == fid) with
  | none => rfl
  | some fu =>
    have hfu : fu.id = fid := by simpa using List.find?_some hf
    simp only []
    rw [if_neg]
    rw [hfu]
    exact h

/-- C9 witness: bob (2) does not follow alice (1) in `wDB`, and stopping the
non-existent follow yields the error outcome. -/
theorem stop_following_unguarded_witness :
    Follows.mk 1 wU2.id ∉ wDB.follows ∧
      stop_following wDB (some wU2) 1 = (StopOutcome.valueError, wDB) :=
  ⟨by decide, stop_following_unguarded wDB wU2 1 (by decide)⟩

/-- C10: a successful profile update leaves messages, follows and likes
untouched, keeps every other user's row, replaces only the current user's
row by one with the same id and password hash and the submitted fields, and
a blank submitted image_url or header_image_url keeps the previous value. -/
theorem profile_update_frame (check : String → String → Bool) (db : DB) (u : User)
    (form : EditProfileForm) (hu : u ∈ db.users)
    (hok : (profile_update check db (some u) form).1 = ProfileOutcome.ok) :
    (profile_update check db (some u) form).2.messages = db.messages ∧
    (profile_update check db (some u) form).2.follows = db.follows ∧
    (profile_update check db (some u) form).2.likes = db.likes ∧
    (profile_update check db (some u) form).2.users.length = db.users.length ∧
    (∀ v ∈ db.users, v.id ≠ u.id → v ∈ (profile_update check db (some u) form).2.users) ∧
    (∀ v ∈ (profile_update check db (some u) form).2.users, v.id ≠ u.id → v ∈ db.users) ∧
    applyEdit u form ∈ (profile_update check db (some u) form).2.users ∧
    (applyEdit u form).id = u.id ∧
    (applyEdit u form).password = u.password ∧
    (applyEdit u form).username = form.username ∧
    (applyEdit u form).email = form.email ∧
    (applyEdit u form).location = form.location ∧
    (applyEdit u form).bio = form.bio ∧
    (form.image_url = "" → (applyEdit u form).image_url = u.image_url) ∧
    (form.header_image_url = "" →
      (applyEdit u form).header_image_url = u.header_image_url) := by
  cases ha : authenticate check db u.username form.password with
  | none =>
    unfold profile_update at hok
    simp [ha] at hok
  | some v =>
    cases hc : db.users.any
        (fun w => w.id != u.id && (w.username == form.username || w.email == form.email)) with
    | true =>
      unfold profile_update at hok
      simp [ha, hc] at hok
    | false =>
      have heq : profile_update check db (some u) form =
          (ProfileOutcome.ok,
            { db with users :=
                db.users.map (fun w => if w.id == u.id then applyEdit u form else w) }) := by
        unfold profile_update
        simp [ha, hc]
      rw [heq]
      refine ⟨rfl, rfl, rfl, List.length_map _ _, ?_, ?_, ?_, rfl, rfl, rfl, rfl, rfl, rfl,
        ?_, ?_⟩
      · intro w hw hne
        exact List.mem_map.2 ⟨w, hw, by rw [if_neg (by simpa using hne)]⟩
      · intro w hw hne
        obtain ⟨w0, hw0, hw0eq⟩ := List.mem_map.1 hw
        by_cases h0 : (w0.id == u.id) = true
        · rw [if_pos h0] at hw0eq
          exfalso
          apply hne
          rw [← hw0eq]
          rfl
        · rw [if_neg h0] at hw0eq
          rw [← hw0eq]
          exact hw0
      · exact List.mem_map.2 ⟨u, hu, by rw [if_pos (by simp)]⟩
      · intro h
        simp [applyEdit, h]
      · intro h
        simp [applyEdit, h]

/-- C10 witness: alice's successful profile edit in `wDB` leaves the
messages table unchanged. -/
theorem profile_update_frame_witness :
    wU1 ∈ wDB.users ∧
      (profile_update checkModel wDB (some wU1) wForm).2.messages = wDB.messages :=
  ⟨by decide, (profile_update_frame checkModel wDB wU1 wForm (by decide) (by decide)).1⟩

end Warbler
